import Mathlib

/-!
Shallow embedding of the Keystone POS sale engine (src/main.py together with
the pydantic schemas of src/schemas.py).

Modelling conventions:
* Python floats are modelled as exact rationals (ℚ).  `round(x, 3)` is
  modelled as rounding `1000 * x` to the nearest integer and dividing by
  1000 (`round3` below); tie behaviour is immaterial to every tolerance
  stated in the claims, all of which are at least one unit in the third
  decimal place.
* The Mongo document store is modelled as lists of records.  `find_one`
  returns the first matching document, `update_one` with `$inc` mutates
  that first matching document, `create_document` appends.
* A Python dict keeps insertion order; `tax_breakdown` is therefore an
  association list updated in place (`bdAdd`).  The dict comprehension
  `{t["code"]: t for t in docs}` lets a later document win for a duplicate
  code, hence `taxLookup` returns the last match.
* `HTTPException` raised mid-loop is modelled by an error result that
  carries the already mutated product store, since the Mongo updates that
  preceded the exception persist.
-/

namespace Keystone

/-- Product document, from `schemas.Product`. -/
structure Product where
  sku : String
  name : String
  price : ℚ
  stock : ℚ
  unit : String
  tax_code : Option String
  barcode : Option String
  category : Option String
  is_active : Bool
deriving Repr, DecidableEq

/-- TaxRate document, from `schemas.TaxRate`. -/
structure TaxRate where
  name : String
  rate : ℚ
  code : String
  is_default : Bool
deriving Repr, DecidableEq

/-- One requested sale line, from `schemas.SaleItem`. -/
structure SaleItem where
  sku : String
  name : String
  qty : ℚ
  unit_price : ℚ
  tax_code : Option String
deriving Repr, DecidableEq

/-- Payment information, from `schemas.Payment`. -/
structure Payment where
  method : String
  paid : ℚ
  change : ℚ
deriving Repr, DecidableEq

/-- Incoming sale request body, from `schemas.Sale`.  The caller may send
`subtotal`, `tax_total`, `total` and `tax_breakdown`; `create_sale`
overwrites them. -/
structure Sale where
  items : List SaleItem
  customer_name : Option String
  subtotal : ℚ
  tax_total : ℚ
  total : ℚ
  tax_breakdown : Option (List (String × ℚ))
  payment : Payment
  user : Option String
  timestamp : Option Nat
deriving Repr, DecidableEq

/-- Persisted sale record: `sale.model_dump()` with the four computed
fields overwritten (main.py lines 183-189). -/
structure SaleRecord where
  items : List SaleItem
  customer_name : Option String
  subtotal : ℚ
  tax_total : ℚ
  total : ℚ
  tax_breakdown : List (String × ℚ)
  payment : Payment
  user : Option String
  timestamp : Option Nat
deriving Repr, DecidableEq

/-- The document store: the `product`, `taxrate` and `sale` collections. -/
structure DB where
  products : List Product
  taxrates : List TaxRate
  sales : List SaleRecord
deriving Repr, DecidableEq

/-- Python's `round(x, 3)`: round to the nearest multiple of `1/1000`. -/
def round3 (x : ℚ) : ℚ := ((round (1000 * x) : ℤ) : ℚ) / 1000

/-- Mongo `find_one({"sku": sku})`: first product document matching the SKU
(main.py line 168). -/
def findProduct (ps : List Product) (sku : String) : Option Product :=
  ps.find? (fun p => p.sku == sku)

/-- Mongo `update_one({"_id": prod["_id"]}, {"$inc": {"stock": -qty}})`
applied to the first document with the given SKU (main.py line 179). -/
def decStock (ps : List Product) (sku : String) (q : ℚ) : List Product :=
  match ps with
  | [] => []
  | p :: rest =>
      if p.sku == sku then { p with stock := p.stock - q } :: rest
      else p :: decStock rest sku q

/-- Lookup in the dict `{t["code"]: t for t in docs}` (main.py line 158):
for a duplicated code the later document wins. -/
def taxLookup (ts : List TaxRate) (c : String) : Option TaxRate :=
  ts.foldl (fun acc t => if t.code == c then some t else acc) none

/-- Python `tax_breakdown[c] = tax_breakdown.get(c, 0.0) + amt` on an
insertion-ordered dict (main.py line 177). -/
def bdAdd (bd : List (String × ℚ)) (c : String) (a : ℚ) : List (String × ℚ) :=
  match bd with
  | [] => [(c, a)]
  | (k, v) :: rest =>
      if k == c then (k, v + a) :: rest else (k, v) :: bdAdd rest c a

/-- Accumulator state of the loop over `sale.items` (main.py lines 161-179):
the evolving product collection plus the running totals. -/
structure LoopState where
  products : List Product
  subtotal : ℚ
  tax_total : ℚ
  tax_breakdown : List (String × ℚ)
deriving Repr, DecidableEq

/-- Per-item loop of `create_sale` (main.py lines 166-179).  On an unknown
SKU it aborts with the `HTTPException` detail string and the state as
mutated so far; stock of the current line is decremented only after its
validation, tax is added only when the tax code is truthy and present in
the snapshot dict. -/
def saleLoop (taxes : List TaxRate) :
    List SaleItem → LoopState → Except (String × LoopState) LoopState
  | [], st => .ok st
  | item :: rest, st =>
      match findProduct st.products item.sku with
      | none => .error ("Unknown SKU: " ++ item.sku, st)
      | some _ =>
          let lp := item.qty * item.unit_price
          let tbd : ℚ × List (String × ℚ) :=
            match item.tax_code with
            | some c =>
                if c ≠ "" then
                  match taxLookup taxes c with
                  | some tr =>
                      (st.tax_total + lp * tr.rate,
                       bdAdd st.tax_breakdown c (lp * tr.rate))
                  | none => (st.tax_total, st.tax_breakdown)
                else (st.tax_total, st.tax_breakdown)
            | none => (st.tax_total, st.tax_breakdown)
          saleLoop taxes rest
            ⟨decStock st.products item.sku item.qty,
             st.subtotal + lp, tbd.1, tbd.2⟩

/-- POST `/api/sales` (main.py lines 155-192).  Returns the store after the
request together with either the persisted sale record (whose `subtotal`,
`tax_total`, `total` fields are also what the endpoint returns) or the
error detail string. -/
def create_sale (db : DB) (sale : Sale) : DB × Except String SaleRecord :=
  match saleLoop db.taxrates sale.items ⟨db.products, 0, 0, []⟩ with
  | .error (msg, st) => ({ db with products := st.products }, .error msg)
  | .ok st =>
      let record : SaleRecord :=
        { items := sale.items
          customer_name := sale.customer_name
          subtotal := round3 st.subtotal
          tax_total := round3 st.tax_total
          total := round3 (st.subtotal + st.tax_total)
          tax_breakdown := st.tax_breakdown.map (fun kv => (kv.1, round3 kv.2))
          payment := sale.payment
          user := sale.user
          timestamp := sale.timestamp }
      ({ db with products := st.products, sales := db.sales ++ [record] },
       .ok record)

/-- The three default Tunisian TVA rates (main.py lines 72-76). -/
def defaultTaxes : List TaxRate :=
  [ { name := "TVA 7%", rate := 7/100, code := "TVA7", is_default := false },
    { name := "TVA 13%", rate := 13/100, code := "TVA13", is_default := false },
    { name := "TVA 19%", rate := 19/100, code := "TVA19", is_default := true } ]

/-- Does some document in the collection carry the given code? -/
def hasCode (ts : List TaxRate) (c : String) : Bool :=
  ts.any (fun t => t.code == c)

/-- `ensure_default_taxes` (main.py lines 70-83): create every default whose
code is absent, returning the new collection and the created documents. -/
def ensure_default_taxes (ts : List TaxRate) : List TaxRate × List TaxRate :=
  let created := defaultTaxes.filter (fun d => !(hasCode ts d.code))
  (ts ++ created, created)

/-! ### Closed forms of the loop (pure aggregator functions) -/

/-- Line amount `qty * unit_price` (main.py line 171). -/
def lineAmount (it : SaleItem) : ℚ := it.qty * it.unit_price

/-- Rate applied to a line: the snapshot rate when the tax code is truthy
and present, zero otherwise (main.py lines 173-174). -/
def lineTaxRate (taxes : List TaxRate) (it : SaleItem) : ℚ :=
  match it.tax_code with
  | some c =>
      if c ≠ "" then
        match taxLookup taxes c with
        | some tr => tr.rate
        | none => 0
      else 0
  | none => 0

/-- Tax contributed by one line. -/
def lineTax (taxes : List TaxRate) (it : SaleItem) : ℚ :=
  lineAmount it * lineTaxRate taxes it

/-- Subtotal before rounding: sum of the line amounts. -/
def rawSubtotal (items : List SaleItem) : ℚ := (items.map lineAmount).sum

/-- Tax total before rounding: sum of the line taxes. -/
def rawTax (taxes : List TaxRate) (items : List SaleItem) : ℚ :=
  (items.map (lineTax taxes)).sum

/-- Per-item update of the tax breakdown dict (main.py lines 173-177): an
entry is touched only when the tax code is truthy and in the snapshot. -/
def bdStep (taxes : List TaxRate) (bd : List (String × ℚ)) (it : SaleItem) :
    List (String × ℚ) :=
  match it.tax_code with
  | some c =>
      if c ≠ "" then
        match taxLookup taxes c with
        | some tr => bdAdd bd c (lineAmount it * tr.rate)
        | none => bd
      else bd
  | none => bd

/-- Tax breakdown before rounding, as a fold over the items. -/
def rawBreakdown (taxes : List TaxRate) (items : List SaleItem) :
    List (String × ℚ) :=
  items.foldl (bdStep taxes) []

/-- Product store after all the per-line stock decrements. -/
def decAll (items : List SaleItem) (ps : List Product) : List Product :=
  items.foldl (fun a it => decStock a it.sku it.qty) ps

/-- Sale record as finalized on the success path: the input request with
the four computed fields overwritten. -/
def mkRecord (db : DB) (sale : Sale) : SaleRecord :=
  { items := sale.items
    customer_name := sale.customer_name
    subtotal := round3 (rawSubtotal sale.items)
    tax_total := round3 (rawTax db.taxrates sale.items)
    total := round3 (rawSubtotal sale.items + rawTax db.taxrates sale.items)
    tax_breakdown :=
      (rawBreakdown db.taxrates sale.items).map (fun kv => (kv.1, round3 kv.2))
    payment := sale.payment
    user := sale.user
    timestamp := sale.timestamp }

/-! ### Structural lemmas about the loop -/

theorem decStock_map_sku (ps : List Product) (sku : String) (q : ℚ) :
    (decStock ps sku q).map Product.sku = ps.map Product.sku := by
  induction ps with
  | nil => rfl
  | cons p rest ih =>
      by_cases h : p.sku = sku <;> simp [decStock, h, ih]

theorem findProduct_isSome_iff (ps : List Product) (sku : String) :
    (findProduct ps sku).isSome = true ↔ sku ∈ ps.map Product.sku := by
  simp [findProduct, List.find?_isSome, List.mem_map]

theorem findProduct_decStock_isNone (ps : List Product) (s c : String) (q : ℚ) :
    (findProduct (decStock ps s q) c).isNone = (findProduct ps c).isNone := by
  induction ps with
  | nil => rfl
  | cons p rest ih =>
      simp only [findProduct] at ih ⊢
      by_cases hs : p.sku = s
      · rw [decStock, if_pos (by simp [hs])]
        by_cases hc : p.sku = c
        · simp [List.find?, hc]
        · have hcb : (p.sku == c) = false := by simp [hc]
          simp [List.find?, hcb]
      · rw [decStock, if_neg (by simp [hs])]
        by_cases hc : p.sku = c
        · simp [List.find?, hc]
        · have hcb : (p.sku == c) = false := by simp [hc]
          simp [List.find?, hcb, ih]

theorem saleLoop_nil (taxes : List TaxRate) (st : LoopState) :
    saleLoop taxes [] st = .ok st := rfl

theorem saleLoop_cons_none (taxes : List TaxRate) (item : SaleItem)
    (rest : List SaleItem) (st : LoopState)
    (h : findProduct st.products item.sku = none) :
    saleLoop taxes (item :: rest) st =
      .error ("Unknown SKU: " ++ item.sku, st) := by
  simp [saleLoop, h]

theorem saleLoop_cons_some (taxes : List TaxRate) (item : SaleItem)
    (rest : List SaleItem) (st : LoopState) (p : Product)
    (h : findProduct st.products item.sku = some p) :
    saleLoop taxes (item :: rest) st =
      saleLoop taxes rest
        ⟨decStock st.products item.sku item.qty,
         st.subtotal + lineAmount item,
         st.tax_total + lineTax taxes item,
         bdStep taxes st.tax_breakdown item⟩ := by
  rcases item with ⟨sku, nm, qty, up, tc⟩
  simp only [saleLoop, h]
  rcases tc with _ | c
  · simp [lineTax, lineTaxRate, lineAmount, bdStep]
  · by_cases hc : c = ""
    · simp [lineTax, lineTaxRate, lineAmount, bdStep, hc]
    · cases hl : taxLookup taxes c with
      | none => simp [lineTax, lineTaxRate, lineAmount, bdStep, hc, hl]
      | some tr => simp [lineTax, lineTaxRate, lineAmount, bdStep, hc, hl]

theorem saleLoop_ok_inv (taxes : List TaxRate) :
    ∀ (items : List SaleItem) (st st' : LoopState),
      saleLoop taxes items st = .ok st' →
      st' = ⟨decAll items st.products,
             st.subtotal + rawSubtotal items,
             st.tax_total + rawTax taxes items,
             items.foldl (bdStep taxes) st.tax_breakdown⟩ := by
  intro items
  induction items with
  | nil =>
      intro st st' h
      rw [saleLoop_nil] at h
      injection h with h
      subst h
      rcases st with ⟨ps, s, t, bd⟩
      simp [decAll, rawSubtotal, rawTax]
  | cons item rest ih =>
      intro st st' h
      cases hf : findProduct st.products item.sku with
      | none => rw [saleLoop_cons_none _ _ _ _ hf] at h; cases h
      | some p =>
          rw [saleLoop_cons_some _ _ _ _ _ hf] at h
          have h2 := ih _ _ h
          subst h2
          simp [decAll, rawSubtotal, rawTax, add_assoc]

theorem saleLoop_err_inv (taxes : List TaxRate) :
    ∀ (items : List SaleItem) (st : LoopState) (msg : String) (st' : LoopState),
      saleLoop taxes items st = .error (msg, st') →
      ∃ it, items.find?
              (fun it => (findProduct st.products it.sku).isNone) = some it ∧
            msg = "Unknown SKU: " ++ it.sku := by
  intro items
  induction items with
  | nil => intro st msg st' h; cases h
  | cons item rest ih =>
      intro st msg st' h
      cases hf : findProduct st.products item.sku with
      | none =>
          rw [saleLoop_cons_none _ _ _ _ hf] at h
          injection h with h
          injection h with h1 h2
          refine ⟨item, ?_, h1.symm⟩
          simp [List.find?_cons, hf]
      | some p =>
          rw [saleLoop_cons_some _ _ _ _ _ hf] at h
          obtain ⟨it, hfind, hmsg⟩ := ih _ _ _ h
          have hpred :
              (fun it : SaleItem =>
                (findProduct
                  (decStock st.products item.sku item.qty) it.sku).isNone) =
              (fun it : SaleItem =>
                (findProduct st.products it.sku).isNone) :=
            funext fun it => findProduct_decStock_isNone _ _ _ _
          rw [hpred] at hfind
          refine ⟨it, ?_, hmsg⟩
          simpa [List.find?_cons, hf] using hfind

theorem saleLoop_ok_presence (taxes : List TaxRate) :
    ∀ (items : List SaleItem) (st st' : LoopState),
      saleLoop taxes items st = .ok st' →
      ∀ it ∈ items, it.sku ∈ st.products.map Product.sku := by
  intro items
  induction items with
  | nil => intro st st' _ it hit; cases hit
  | cons item rest ih =>
      intro st st' h it hit
      cases hf : findProduct st.products item.sku with
      | none => rw [saleLoop_cons_none _ _ _ _ hf] at h; cases h
      | some p =>
          rw [saleLoop_cons_some _ _ _ _ _ hf] at h
          rcases List.mem_cons.mp hit with rfl | hit
          · rw [← findProduct_isSome_iff]
            simp [hf]
          · have := ih _ _ h it hit
            rwa [decStock_map_sku] at this

theorem saleLoop_ok_of_presence (taxes : List TaxRate) :
    ∀ (items : List SaleItem) (st : LoopState),
      (∀ it ∈ items, it.sku ∈ st.products.map Product.sku) →
      ∃ st', saleLoop taxes items st = .ok st' := by
  intro items
  induction items with
  | nil => intro st _; exact ⟨st, rfl⟩
  | cons item rest ih =>
      intro st h
      have hm : item.sku ∈ st.products.map Product.sku := h item (by simp)
      rw [← findProduct_isSome_iff] at hm
      obtain ⟨p, hf⟩ := Option.isSome_iff_exists.mp hm
      rw [saleLoop_cons_some _ _ _ _ _ hf]
      apply ih
      intro it hit
      rw [decStock_map_sku]
      exact h it (by simp [hit])

/-! ### Rounding lemmas -/

theorem abs_round3_sub (x : ℚ) : |round3 x - x| ≤ 1 / 2000 := by
  have h : |((round (1000 * x) : ℤ) : ℚ) - 1000 * x| ≤ 1 / 2 := by
    rw [abs_sub_comm]; exact abs_sub_round (1000 * x)
  have e : round3 x - x = (((round (1000 * x) : ℤ) : ℚ) - 1000 * x) / 1000 := by
    rw [round3]; ring
  rw [e, abs_div, abs_of_pos (by norm_num : (0:ℚ) < 1000)]
  linarith

theorem round3_add_sub_bound (a b : ℚ) :
    |round3 (a + b) - (round3 a + round3 b)| ≤ 1 / 1000 := by
  set d : ℤ := round (1000 * (a + b)) - round (1000 * a) - round (1000 * b)
    with hd
  have hdq : round3 (a + b) - (round3 a + round3 b) = (d : ℚ) / 1000 := by
    rw [round3, round3, round3, hd]; push_cast; ring
  have h1 : |(d : ℚ)| ≤ 3 / 2 := by
    have e : (d : ℚ) =
        (((round (1000 * (a + b)) : ℤ) : ℚ) - 1000 * (a + b)) -
        ((((round (1000 * a) : ℤ) : ℚ)) - 1000 * a) -
        ((((round (1000 * b) : ℤ) : ℚ)) - 1000 * b) := by
      rw [hd]; push_cast; ring
    have h2 := abs_sub_round (1000 * (a + b))
    have h3 := abs_sub_round (1000 * a)
    have h4 := abs_sub_round (1000 * b)
    rw [abs_sub_comm] at h2 h3 h4
    rcases abs_le.mp h2 with ⟨h2l, h2r⟩
    rcases abs_le.mp h3 with ⟨h3l, h3r⟩
    rcases abs_le.mp h4 with ⟨h4l, h4r⟩
    rw [e, abs_le]
    constructor <;> linarith
  have h5 : |d| ≤ 1 := by
    have h6 : |(d : ℚ)| < 2 := lt_of_le_of_lt h1 (by norm_num)
    have h7 : ((|d| : ℤ) : ℚ) < 2 := by rwa [Int.cast_abs]
    have h8 : |d| < 2 := by exact_mod_cast h7
    omega
  rw [hdq, abs_div, abs_of_pos (by norm_num : (0:ℚ) < 1000)]
  have h9 : |(d : ℚ)| ≤ 1 := by
    rw [← Int.cast_abs]; exact_mod_cast h5
  linarith

theorem abs_map_round3_sum_sub (l : List ℚ) :
    |(l.map round3).sum - l.sum| ≤ (l.length : ℚ) / 2000 := by
  induction l with
  | nil => simp
  | cons x rest ih =>
      have hx := abs_round3_sub x
      simp only [List.map_cons, List.sum_cons, List.length_cons]
      have e : (round3 x + (rest.map round3).sum) - (x + rest.sum)
             = (round3 x - x) + ((rest.map round3).sum - rest.sum) := by ring
      rw [e]
      calc |(round3 x - x) + ((rest.map round3).sum - rest.sum)|
          ≤ |round3 x - x| + |(rest.map round3).sum - rest.sum| := abs_add _ _
        _ ≤ 1 / 2000 + (rest.length : ℚ) / 2000 := add_le_add hx ih
        _ = ((rest.length : ℚ) + 1) / 2000 := by ring
        _ = (((rest.length + 1 : ℕ)) : ℚ) / 2000 := by push_cast; ring

theorem round3_sum_bound (l : List ℚ) :
    |(l.map round3).sum - round3 l.sum| ≤ (l.length : ℚ) / 1000 := by
  cases l with
  | nil => simp [round3]
  | cons x rest =>
      have h1 := abs_map_round3_sum_sub (x :: rest)
      have h2 := abs_round3_sub (x :: rest).sum
      have h3 := abs_sub_le ((x :: rest).map round3).sum (x :: rest).sum
        (round3 (x :: rest).sum)
      rw [abs_sub_comm (x :: rest).sum (round3 (x :: rest).sum)] at h3
      have hn : (1 : ℚ) ≤ ((x :: rest).length : ℚ) := by
        simp only [List.length_cons]
        push_cast
        linarith [Nat.cast_nonneg (α := ℚ) rest.length]
      linarith

/-! ### Aggregation lemmas -/

theorem bdAdd_snd_sum (bd : List (String × ℚ)) (c : String) (a : ℚ) :
    ((bdAdd bd c a).map Prod.snd).sum = (bd.map Prod.snd).sum + a := by
  induction bd with
  | nil => simp [bdAdd]
  | cons kv rest ih =>
      rcases kv with ⟨k, v⟩
      by_cases h : k = c
      · simp [bdAdd, h]; ring
      · have hb : (k == c) = false := by simp [h]
        simp [bdAdd, hb, ih]; ring

theorem bdStep_snd_sum (taxes : List TaxRate) (bd : List (String × ℚ))
    (it : SaleItem) :
    ((bdStep taxes bd it).map Prod.snd).sum
      = (bd.map Prod.snd).sum + lineTax taxes it := by
  rcases it with ⟨sku, nm, qty, up, tc⟩
  rcases tc with _ | c
  · simp [bdStep, lineTax, lineTaxRate]
  · by_cases hc : c = ""
    · simp [bdStep, lineTax, lineTaxRate, hc]
    · cases hl : taxLookup taxes c with
      | none => simp [bdStep, lineTax, lineTaxRate, hc, hl]
      | some tr =>
          simp [bdStep, lineTax, lineTaxRate, lineAmount, hc, hl, bdAdd_snd_sum]

theorem foldl_bdStep_snd_sum (taxes : List TaxRate) :
    ∀ (items : List SaleItem) (bd : List (String × ℚ)),
      ((items.foldl (bdStep taxes) bd).map Prod.snd).sum
        = (bd.map Prod.snd).sum + rawTax taxes items := by
  intro items
  induction items with
  | nil => intro bd; simp [rawTax]
  | cons it rest ih =>
      intro bd
      simp only [List.foldl_cons]
      rw [ih, bdStep_snd_sum]
      simp [rawTax, add_assoc]

theorem rawBreakdown_snd_sum (taxes : List TaxRate) (items : List SaleItem) :
    ((rawBreakdown taxes items).map Prod.snd).sum = rawTax taxes items := by
  simpa [rawBreakdown] using foldl_bdStep_snd_sum taxes items []

theorem bdAdd_fst (bd : List (String × ℚ)) (c : String) (a : ℚ) :
    (bdAdd bd c a).map Prod.fst =
      if c ∈ bd.map Prod.fst then bd.map Prod.fst
      else bd.map Prod.fst ++ [c] := by
  induction bd with
  | nil => simp [bdAdd]
  | cons kv rest ih =>
      rcases kv with ⟨k, v⟩
      by_cases h : k = c
      · simp [bdAdd, h]
      · have hb : (k == c) = false := by simp [h]
        have hkc : ¬ c = k := fun hh => h hh.symm
        by_cases hm : c ∈ rest.map Prod.fst <;>
          simp [bdAdd, hb, ih, hm, List.mem_cons, hkc]

theorem bdAdd_fst_nodup (bd : List (String × ℚ)) (c : String) (a : ℚ)
    (h : (bd.map Prod.fst).Nodup) : ((bdAdd bd c a).map Prod.fst).Nodup := by
  rw [bdAdd_fst]
  by_cases hm : c ∈ bd.map Prod.fst
  · simpa [hm] using h
  · simp [hm, List.nodup_append, h, List.disjoint_singleton]

theorem bdStep_fst_nodup (taxes : List TaxRate) (bd : List (String × ℚ))
    (it : SaleItem) (h : (bd.map Prod.fst).Nodup) :
    ((bdStep taxes bd it).map Prod.fst).Nodup := by
  rcases it with ⟨sku, nm, qty, up, tc⟩
  rcases tc with _ | c
  · simpa [bdStep] using h
  · by_cases hc : c = ""
    · simpa [bdStep, hc] using h
    · cases hl : taxLookup taxes c with
      | none => simpa [bdStep, hc, hl] using h
      | some tr =>
          simpa [bdStep, hc, hl] using bdAdd_fst_nodup bd c _ h

theorem rawBreakdown_fst_nodup (taxes : List TaxRate) (items : List SaleItem) :
    ((rawBreakdown taxes items).map Prod.fst).Nodup := by
  suffices h : ∀ (l : List SaleItem) (bd : List (String × ℚ)),
      (bd.map Prod.fst).Nodup →
      ((l.foldl (bdStep taxes) bd).map Prod.fst).Nodup by
    simpa [rawBreakdown] using h items [] (by simp)
  intro l
  induction l with
  | nil => intro bd hbd; simpa using hbd
  | cons it rest ih =>
      intro bd hbd
      simp only [List.foldl_cons]
      exact ih _ (bdStep_fst_nodup taxes bd it hbd)

theorem map_round3_snd (l : List (String × ℚ)) :
    (l.map (fun kv => (kv.1, round3 kv.2))).map Prod.snd
      = (l.map Prod.snd).map round3 := by
  simp [List.map_map]

theorem map_round3_fst (l : List (String × ℚ)) :
    (l.map (fun kv => (kv.1, round3 kv.2))).map Prod.fst = l.map Prod.fst := by
  simp [List.map_map]

theorem rawSubtotal_perm (l1 l2 : List SaleItem) (h : List.Perm l1 l2) :
    rawSubtotal l1 = rawSubtotal l2 := (h.map lineAmount).sum_eq

theorem rawTax_perm (taxes : List TaxRate) (l1 l2 : List SaleItem)
    (h : List.Perm l1 l2) : rawTax taxes l1 = rawTax taxes l2 :=
  (h.map (lineTax taxes)).sum_eq

theorem noTax_step (taxes : List TaxRate) (it : SaleItem)
    (h : it.tax_code = none ∨
         ∃ c, it.tax_code = some c ∧ taxLookup taxes c = none) :
    lineTaxRate taxes it = 0 ∧ ∀ bd, bdStep taxes bd it = bd := by
  rcases it with ⟨sku, nm, qty, up, tc⟩
  rcases h with h | ⟨c, hc, hl⟩
  · simp only [SaleItem.tax_code] at h
    subst h
    simp [lineTaxRate, bdStep]
  · simp only [SaleItem.tax_code] at hc
    subst hc
    by_cases hce : c = ""
    · simp [lineTaxRate, bdStep, hce]
    · simp [lineTaxRate, bdStep, hce, hl]

theorem rawSubtotal_middle (pre post : List SaleItem) (it : SaleItem) :
    rawSubtotal (pre ++ it :: post)
      = rawSubtotal (pre ++ post) + lineAmount it := by
  simp [rawSubtotal]
  ring

theorem rawTax_middle (taxes : List TaxRate) (pre post : List SaleItem)
    (it : SaleItem) (h : lineTaxRate taxes it = 0) :
    rawTax taxes (pre ++ it :: post) = rawTax taxes (pre ++ post) := by
  simp [rawTax, lineTax, h]

theorem rawBreakdown_middle (taxes : List TaxRate) (pre post : List SaleItem)
    (it : SaleItem) (h : ∀ bd, bdStep taxes bd it = bd) :
    rawBreakdown taxes (pre ++ it :: post) = rawBreakdown taxes (pre ++ post) := by
  simp [rawBreakdown, List.foldl_append, List.foldl_cons, h]

/-! ### Closed forms of `create_sale` -/

theorem create_sale_ok_eq (db : DB) (sale : Sale)
    (h : ∀ it ∈ sale.items, it.sku ∈ db.products.map Product.sku) :
    create_sale db sale =
      ({ db with products := decAll sale.items db.products,
                 sales := db.sales ++ [mkRecord db sale] },
       .ok (mkRecord db sale)) := by
  obtain ⟨st', hok⟩ :=
    saleLoop_ok_of_presence db.taxrates sale.items ⟨db.products, 0, 0, []⟩ h
  have h2 := saleLoop_ok_inv db.taxrates sale.items _ _ hok
  subst h2
  unfold create_sale
  rw [hok]
  simp [mkRecord, rawBreakdown]

theorem create_sale_err_inv (db : DB) (sale : Sale) (db' : DB) (msg : String)
    (h : create_sale db sale = (db', .error msg)) :
    db'.sales = db.sales ∧ db'.taxrates = db.taxrates ∧
    ∃ it, sale.items.find?
            (fun it => (findProduct db.products it.sku).isNone) = some it ∧
          msg = "Unknown SKU: " ++ it.sku := by
  unfold create_sale at h
  cases hl : saleLoop db.taxrates sale.items ⟨db.products, 0, 0, []⟩ with
  | error e =>
      rcases e with ⟨m, st⟩
      rw [hl] at h
      injection h with h1 h2
      injection h2 with h2
      subst h1
      obtain ⟨it, hfind, hmsg⟩ := saleLoop_err_inv db.taxrates sale.items _ _ _ hl
      exact ⟨rfl, rfl, it, hfind, h2 ▸ hmsg⟩
  | ok st =>
      rw [hl] at h
      injection h with h1 h2
      cases h2

/-! ### Stock lemmas -/

theorem decStock_mem (ps : List Product) (sku : String) (q : ℚ) :
    ∀ p' ∈ decStock ps sku q,
      ∃ p ∈ ps, p' = p ∨ p' = { p with stock := p.stock - q } := by
  induction ps with
  | nil => intro p' h; cases h
  | cons p rest ih =>
      intro p' h
      by_cases hs : p.sku = sku
      · rw [decStock, if_pos (by simp [hs])] at h
        rcases List.mem_cons.mp h with rfl | h
        · exact ⟨p, by simp, Or.inr rfl⟩
        · exact ⟨p', List.mem_cons_of_mem _ h, Or.inl rfl⟩
      · rw [decStock, if_neg (by simp [hs])] at h
        rcases List.mem_cons.mp h with rfl | h
        · exact ⟨p', by simp, Or.inl rfl⟩
        · obtain ⟨p0, hp0, hor⟩ := ih p' h
          exact ⟨p0, List.mem_cons_of_mem _ hp0, hor⟩

theorem decAll_stock_lb :
    ∀ (items : List SaleItem) (ps : List Product),
      (∀ it ∈ items, 0 ≤ it.qty) →
      ∀ p' ∈ decAll items ps,
        ∃ p ∈ ps, p.stock - (items.map SaleItem.qty).sum ≤ p'.stock := by
  intro items
  induction items with
  | nil =>
      intro ps _ p' h
      refine ⟨p', by simpa [decAll] using h, by simp⟩
  | cons it rest ih =>
      intro ps hq p' h
      have h' : p' ∈ decAll rest (decStock ps it.sku it.qty) := by
        simpa [decAll, List.foldl_cons] using h
      obtain ⟨p1, hp1, hle⟩ :=
        ih (decStock ps it.sku it.qty) (fun x hx => hq x (by simp [hx])) p' h'
      obtain ⟨p0, hp0, hor⟩ := decStock_mem ps it.sku it.qty p1 hp1
      refine ⟨p0, hp0, ?_⟩
      have hq0 : 0 ≤ it.qty := hq it (by simp)
      simp only [List.map_cons, List.sum_cons]
      rcases hor with rfl | rfl
      · linarith
      · have hst : ({ p0 with stock := p0.stock - it.qty } : Product).stock
            = p0.stock - it.qty := rfl
        rw [hst] at hle
        linarith

/-! ### Lemmas about tax seeding -/

theorem hasCode_append (l1 l2 : List TaxRate) (c : String) :
    hasCode (l1 ++ l2) c = (hasCode l1 c || hasCode l2 c) := by
  simp [hasCode, List.any_append]

theorem hasCode_of_mem (ts : List TaxRate) (t : TaxRate) (h : t ∈ ts) :
    hasCode ts t.code = true := by
  simp only [hasCode, List.any_eq_true]
  exact ⟨t, h, by simp⟩

theorem create_sale_ok_iff (db : DB) (sale : Sale) :
    (∃ rec, (create_sale db sale).2 = .ok rec) ↔
      ∀ it ∈ sale.items, it.sku ∈ db.products.map Product.sku := by
  constructor
  · rintro ⟨rec, hrec⟩
    unfold create_sale at hrec
    cases hl : saleLoop db.taxrates sale.items ⟨db.products, 0, 0, []⟩ with
    | error e => rw [hl] at hrec; rcases e with ⟨m, st⟩; cases hrec
    | ok st =>
        exact saleLoop_ok_presence db.taxrates sale.items _ _ hl
  · intro h
    exact ⟨mkRecord db sale, by rw [create_sale_ok_eq db sale h]⟩

/-! ### Concrete fixtures (taken from the demo seed data of main.py) -/

def prodMilk : Product :=
  ⟨"MILK-1L", "Milk 1L", 5/2, 100, "pcs", some "TVA7", none, none, true⟩

def prodBread : Product :=
  ⟨"BREAD-STD", "Bread", 3/5, 200, "pcs", some "TVA7", none, none, true⟩

def payCash : Payment := ⟨"cash", 10, 0⟩

def itemMilk : SaleItem := ⟨"MILK-1L", "Milk 1L", 2, 5/2, some "TVA7"⟩

def itemBread : SaleItem := ⟨"BREAD-STD", "Bread", 1, 3/5, some "TVA7"⟩

def itemFoo : SaleItem := ⟨"FOO-1", "Foo", 1, 1, none⟩

/-- Sale request with the given items, zero caller-supplied totals and a
cash payment. -/
def mkSale (items : List SaleItem) : Sale :=
  ⟨items, none, 0, 0, 0, none, payCash, none, none⟩

def demoDB : DB := ⟨[prodMilk, prodBread], defaultTaxes, []⟩

/-! ### Claims -/

/-- C1: the claim states that a sale request containing an unknown SKU
aborts with no stock decremented for any line, including lines preceding
the unknown-SKU line.  The code decrements stock inside the validation
loop, so on the request `[MILK-1L qty 2, FOO-1 qty 1]` against a catalog
holding MILK-1L (stock 100) and BREAD-STD (stock 200), the transaction
aborts with `Unknown SKU: FOO-1` but MILK-1L's stock has already been
decremented to 98, contradicting the claim. -/
theorem claim_C1_abort_decrements_earlier_lines :
    (create_sale demoDB (mkSale [itemMilk, itemFoo])).2
        = Except.error "Unknown SKU: FOO-1" ∧
    (create_sale demoDB (mkSale [itemMilk, itemFoo])).1.products.map
        Product.stock = [98, 200] ∧
    demoDB.products.map Product.stock = [100, 200] := by
  refine ⟨rfl, ?_, ?_⟩
  · simp [create_sale, saleLoop, findProduct, List.find?, decStock,
      demoDB, prodMilk, prodBread, itemMilk, itemFoo, mkSale, payCash,
      defaultTaxes, taxLookup, bdAdd]
    norm_num
  · norm_num [demoDB, prodMilk, prodBread]

/-- Catalog holding a single MILK-1L with stock 1, for the C2
counterexample. -/
def dbLow : DB :=
  ⟨[⟨"MILK-1L", "Milk 1L", 5/2, 1, "pcs", some "TVA7", none, none, true⟩],
   defaultTaxes, []⟩

/-- C2 counterexample: a committed sale can drive stock negative.  Selling
qty 2 of MILK-1L from stock 1 commits (the engine never checks
sufficiency) and leaves stock −1, falsifying the unconditional
non-negativity invariant. -/
theorem claim_C2_counterexample :
    (∃ rec, (create_sale dbLow (mkSale [itemMilk])).2 = Except.ok rec) ∧
    (create_sale dbLow (mkSale [itemMilk])).1.products.map Product.stock
      = [-1] ∧
    ¬ (∀ p ∈ (create_sale dbLow (mkSale [itemMilk])).1.products,
        0 ≤ p.stock) := by
  have hstock : (create_sale dbLow (mkSale [itemMilk])).1.products.map
      Product.stock = [-1] := by
    rw [create_sale_ok_eq dbLow (mkSale [itemMilk]) (by decide)]
    simp only [decAll, List.foldl, decStock, dbLow, itemMilk, mkSale]
    norm_num
  refine ⟨⟨mkRecord dbLow (mkSale [itemMilk]),
      by rw [create_sale_ok_eq dbLow (mkSale [itemMilk]) (by decide)]⟩,
    hstock, ?_⟩
  intro h
  rcases hp : (create_sale dbLow (mkSale [itemMilk])).1.products with _ | ⟨p, rest⟩
  · rw [hp] at hstock; cases hstock
  · rw [hp] at hstock
    have h0 := h p (by rw [hp]; exact List.mem_cons_self _ _)
    have h1 : p.stock = -1 := by
      have := congrArg (fun l => l.head?) hstock
      simpa using this
    rw [h1] at h0
    norm_num at h0

/-- C2 amended: a committed sale decrements each touched product's stock
with no non-negativity check, so stock can go negative; stock does stay
non-negative whenever every product's prior stock is at least the total
quantity of the request.  This theorem proves the amended guarantee. -/
theorem claim_C2_stock_nonneg_if_sufficient (db : DB) (sale : Sale)
    (hsku : ∀ it ∈ sale.items, it.sku ∈ db.products.map Product.sku)
    (hq : ∀ it ∈ sale.items, 0 ≤ it.qty)
    (hstock : ∀ p ∈ db.products, (sale.items.map SaleItem.qty).sum ≤ p.stock) :
    ∀ p ∈ (create_sale db sale).1.products, 0 ≤ p.stock := by
  rw [create_sale_ok_eq db sale hsku]
  intro p hp
  obtain ⟨p0, hp0, hle⟩ := decAll_stock_lb sale.items db.products hq p hp
  have := hstock p0 hp0
  linarith

/-- C2 witness: the amended theorem applied to the demo catalog and the
two-line demo sale. -/
theorem claim_C2_witness :
    (∀ it ∈ (mkSale [itemMilk, itemBread]).items,
        it.sku ∈ demoDB.products.map Product.sku) ∧
    (∀ p ∈ demoDB.products,
        ((mkSale [itemMilk, itemBread]).items.map SaleItem.qty).sum ≤ p.stock) ∧
    ∀ p ∈ (create_sale demoDB (mkSale [itemMilk, itemBread])).1.products,
      0 ≤ p.stock :=
  ⟨by decide,
   by norm_num [mkSale, itemMilk, itemBread, demoDB, prodMilk, prodBread],
   claim_C2_stock_nonneg_if_sufficient demoDB (mkSale [itemMilk, itemBread])
     (by decide)
     (by norm_num [mkSale, itemMilk, itemBread])
     (by norm_num [mkSale, itemMilk, itemBread, demoDB, prodMilk, prodBread])⟩

/-- C3: when every SKU of the request exists, the sale commits with
`subtotal`, `tax_total` and `total` each rounded to 3 decimals only at
finalization from the unrounded sums, and the persisted values satisfy
`total = subtotal + tax_total` up to one unit in the third decimal. -/
theorem claim_C3_total_eq_subtotal_add_tax (db : DB) (sale : Sale)
    (h : ∀ it ∈ sale.items, it.sku ∈ db.products.map Product.sku) :
    ∃ rec, (create_sale db sale).2 = Except.ok rec ∧
      rec.subtotal = round3 (rawSubtotal sale.items) ∧
      rec.tax_total = round3 (rawTax db.taxrates sale.items) ∧
      rec.total = round3 (rawSubtotal sale.items + rawTax db.taxrates sale.items) ∧
      |rec.total - (rec.subtotal + rec.tax_total)| ≤ 1 / 1000 := by
  refine ⟨mkRecord db sale, by rw [create_sale_ok_eq db sale h], rfl, rfl, rfl, ?_⟩
  simpa [mkRecord] using
    round3_add_sub_bound (rawSubtotal sale.items) (rawTax db.taxrates sale.items)

/-- C3 witness: the theorem applied to the demo catalog and the worked
example of the spec (MILK-1L qty 2 at 2.500 and BREAD-STD qty 1 at 0.600,
both TVA7). -/
theorem claim_C3_witness :
    (∀ it ∈ (mkSale [itemMilk, itemBread]).items,
        it.sku ∈ demoDB.products.map Product.sku) ∧
    ∃ rec, (create_sale demoDB (mkSale [itemMilk, itemBread])).2 = Except.ok rec ∧
      rec.subtotal = round3 (rawSubtotal (mkSale [itemMilk, itemBread]).items) ∧
      rec.tax_total = round3 (rawTax demoDB.taxrates (mkSale [itemMilk, itemBread]).items) ∧
      rec.total = round3 (rawSubtotal (mkSale [itemMilk, itemBread]).items
        + rawTax demoDB.taxrates (mkSale [itemMilk, itemBread]).items) ∧
      |rec.total - (rec.subtotal + rec.tax_total)| ≤ 1 / 1000 :=
  ⟨by decide,
   claim_C3_total_eq_subtotal_add_tax demoDB (mkSale [itemMilk, itemBread])
     (by decide)⟩

/-- Bread line carrying a tax code absent from the rate table. -/
def itemBreadBadTax : SaleItem := ⟨"BREAD-STD", "Bread", 1, 3/5, some "TVAX"⟩

/-- C4: a line whose tax code is absent or matches no code in the rate
table does not fail; its amount enters the subtotal, while tax_total and
tax_breakdown are exactly those of the request without that line. -/
theorem claim_C4_unmatched_tax_code (db : DB) (sale : Sale)
    (pre post : List SaleItem) (ln : SaleItem)
    (hitems : sale.items = pre ++ ln :: post)
    (htax : ln.tax_code = none ∨
            ∃ c, ln.tax_code = some c ∧ taxLookup db.taxrates c = none)
    (hsku : ∀ it ∈ sale.items, it.sku ∈ db.products.map Product.sku) :
    ∃ rec, (create_sale db sale).2 = Except.ok rec ∧
      rec.subtotal = round3 (rawSubtotal (pre ++ post) + lineAmount ln) ∧
      rec.tax_total = round3 (rawTax db.taxrates (pre ++ post)) ∧
      rec.tax_breakdown = (rawBreakdown db.taxrates (pre ++ post)).map
        (fun kv => (kv.1, round3 kv.2)) := by
  obtain ⟨hrate, hstep⟩ := noTax_step db.taxrates ln htax
  refine ⟨mkRecord db sale, by rw [create_sale_ok_eq db sale hsku], ?_, ?_, ?_⟩
  · simp [mkRecord, hitems, rawSubtotal_middle]
  · simp [mkRecord, hitems, rawTax_middle db.taxrates pre post ln hrate]
  · simp [mkRecord, hitems, rawBreakdown_middle db.taxrates pre post ln hstep]

/-- C4 witness: the theorem applied to a two-line request whose second
line carries the unknown code TVAX. -/
theorem claim_C4_witness :
    ((mkSale [itemMilk, itemBreadBadTax]).items
        = [itemMilk] ++ itemBreadBadTax :: []) ∧
    taxLookup demoDB.taxrates "TVAX" = none ∧
    ∃ rec, (create_sale demoDB (mkSale [itemMilk, itemBreadBadTax])).2
        = Except.ok rec ∧
      rec.subtotal
        = round3 (rawSubtotal ([itemMilk] ++ []) + lineAmount itemBreadBadTax) ∧
      rec.tax_total = round3 (rawTax demoDB.taxrates ([itemMilk] ++ [])) ∧
      rec.tax_breakdown = (rawBreakdown demoDB.taxrates ([itemMilk] ++ [])).map
        (fun kv => (kv.1, round3 kv.2)) :=
  ⟨rfl, by decide,
   claim_C4_unmatched_tax_code demoDB (mkSale [itemMilk, itemBreadBadTax])
     [itemMilk] [] itemBreadBadTax rfl
     (Or.inr ⟨"TVAX", rfl, by decide⟩) (by decide)⟩

/-- C5: in every committed sale record the breakdown keys are distinct and
the breakdown values sum to the persisted tax_total within 0.001 times the
number of distinct codes. -/
theorem claim_C5_breakdown_sums_to_tax_total (db : DB) (sale : Sale)
    (rec : SaleRecord)
    (h : (create_sale db sale).2 = Except.ok rec) :
    (rec.tax_breakdown.map Prod.fst).Nodup ∧
    |(rec.tax_breakdown.map Prod.snd).sum - rec.tax_total|
      ≤ (rec.tax_breakdown.length : ℚ) / 1000 := by
  have hp : ∀ it ∈ sale.items, it.sku ∈ db.products.map Product.sku :=
    (create_sale_ok_iff db sale).mp ⟨rec, h⟩
  have h2 : (Except.ok (mkRecord db sale) : Except String SaleRecord)
      = Except.ok rec := by
    rw [create_sale_ok_eq db sale hp] at h
    exact h
  injection h2 with h3
  subst h3
  constructor
  · rw [show (mkRecord db sale).tax_breakdown
        = (rawBreakdown db.taxrates sale.items).map
            (fun kv => (kv.1, round3 kv.2)) from rfl, map_round3_fst]
    exact rawBreakdown_fst_nodup db.taxrates sale.items
  · have hb := round3_sum_bound ((rawBreakdown db.taxrates sale.items).map Prod.snd)
    rw [rawBreakdown_snd_sum] at hb
    simpa [mkRecord, map_round3_snd, List.length_map] using hb

/-- C5 witness: the theorem applied to the demo catalog and the two-line
demo sale. -/
theorem claim_C5_witness :
    (create_sale demoDB (mkSale [itemMilk, itemBread])).2
        = Except.ok (mkRecord demoDB (mkSale [itemMilk, itemBread])) ∧
    ((mkRecord demoDB (mkSale [itemMilk, itemBread])).tax_breakdown.map
        Prod.fst).Nodup ∧
    |((mkRecord demoDB (mkSale [itemMilk, itemBread])).tax_breakdown.map
        Prod.snd).sum
      - (mkRecord demoDB (mkSale [itemMilk, itemBread])).tax_total|
      ≤ ((mkRecord demoDB
            (mkSale [itemMilk, itemBread])).tax_breakdown.length : ℚ) / 1000 := by
  have h : (create_sale demoDB (mkSale [itemMilk, itemBread])).2
      = Except.ok (mkRecord demoDB (mkSale [itemMilk, itemBread])) := by
    rw [create_sale_ok_eq demoDB (mkSale [itemMilk, itemBread]) (by decide)]
  exact ⟨h, claim_C5_breakdown_sums_to_tax_total demoDB _ _ h⟩

/-- C6: permuting the lines of a request whose SKUs all exist yields a
committed sale with identical subtotal, tax_total and total. -/
theorem claim_C6_permutation_invariance (db : DB) (s1 s2 : Sale)
    (hperm : List.Perm s1.items s2.items)
    (h : ∀ it ∈ s1.items, it.sku ∈ db.products.map Product.sku) :
    ∃ r1 r2, (create_sale db s1).2 = Except.ok r1 ∧
      (create_sale db s2).2 = Except.ok r2 ∧
      r1.subtotal = r2.subtotal ∧ r1.tax_total = r2.tax_total ∧
      r1.total = r2.total := by
  have h2 : ∀ it ∈ s2.items, it.sku ∈ db.products.map Product.sku :=
    fun it hit => h it (hperm.mem_iff.mpr hit)
  refine ⟨mkRecord db s1, mkRecord db s2,
    by rw [create_sale_ok_eq db s1 h], by rw [create_sale_ok_eq db s2 h2],
    ?_, ?_, ?_⟩ <;>
    simp [mkRecord, rawSubtotal_perm _ _ hperm,
      rawTax_perm db.taxrates _ _ hperm]

/-- C6 witness: the theorem applied to the demo two-line sale and its
swapped version. -/
theorem claim_C6_witness :
    List.Perm (mkSale [itemMilk, itemBread]).items
      (mkSale [itemBread, itemMilk]).items ∧
    ∃ r1 r2,
      (create_sale demoDB (mkSale [itemMilk, itemBread])).2 = Except.ok r1 ∧
      (create_sale demoDB (mkSale [itemBread, itemMilk])).2 = Except.ok r2 ∧
      r1.subtotal = r2.subtotal ∧ r1.tax_total = r2.tax_total ∧
      r1.total = r2.total :=
  ⟨List.Perm.swap itemBread itemMilk [],
   claim_C6_permutation_invariance demoDB (mkSale [itemMilk, itemBread])
     (mkSale [itemBread, itemMilk]) (List.Perm.swap itemBread itemMilk [])
     (by decide)⟩

/-- C7: sale creation fails exactly when some line's SKU is absent from
the catalog; on failure no sale record is persisted and the error message
names the SKU of the first (lowest-index) offending line. -/
theorem claim_C7_fails_iff_unknown_sku (db : DB) (sale : Sale) :
    ((∃ db' msg, create_sale db sale = (db', Except.error msg)) ↔
      ∃ it ∈ sale.items, ¬ it.sku ∈ db.products.map Product.sku) ∧
    (∀ db' msg, create_sale db sale = (db', Except.error msg) →
      db'.sales = db.sales ∧
      ∃ it, sale.items.find?
          (fun it => (findProduct db.products it.sku).isNone) = some it ∧
        msg = "Unknown SKU: " ++ it.sku) := by
  constructor
  · constructor
    · rintro ⟨db', msg, hmsg⟩
      by_contra hnot
      push_neg at hnot
      rw [create_sale_ok_eq db sale hnot] at hmsg
      exact absurd (congrArg Prod.snd hmsg) (by simp)
    · rintro ⟨it, hit, hmem⟩
      rcases hres : create_sale db sale with ⟨db', res⟩
      cases res with
      | ok rec =>
          have hp := (create_sale_ok_iff db sale).mp ⟨rec, by rw [hres]⟩
          exact absurd (hp it hit) hmem
      | error msg => exact ⟨db', msg, rfl⟩
  · intro db' msg h
    obtain ⟨h1, _, h3⟩ := create_sale_err_inv db sale db' msg h
    exact ⟨h1, h3⟩

/-- C7 witness: applying the theorem at the demo catalog and a request
naming the unknown SKU FOO-1 yields the failure. -/
theorem claim_C7_witness :
    ∃ db' msg, create_sale demoDB (mkSale [itemFoo]) = (db', Except.error msg) :=
  (claim_C7_fails_iff_unknown_sku demoDB (mkSale [itemFoo])).1.mpr
    ⟨itemFoo, by decide, by decide⟩

/-- Store with a product catalog but an empty tax-rate collection, for the
C8 counterexample. -/
def dbNoTax : DB := ⟨[prodMilk], [], []⟩

/-- C8 counterexample: `create_sale` never invokes the lazy seeding, so a
sale is processed while all three default tax rates are missing — the
request commits against an empty tax-rate collection and leaves it empty. -/
theorem claim_C8_counterexample :
    (∃ rec, (create_sale dbNoTax (mkSale [itemMilk])).2 = Except.ok rec) ∧
    hasCode dbNoTax.taxrates "TVA7" = false ∧
    hasCode dbNoTax.taxrates "TVA13" = false ∧
    hasCode dbNoTax.taxrates "TVA19" = false ∧
    (create_sale dbNoTax (mkSale [itemMilk])).1.taxrates = [] := by
  refine ⟨⟨mkRecord dbNoTax (mkSale [itemMilk]),
      by rw [create_sale_ok_eq dbNoTax (mkSale [itemMilk]) (by decide)]⟩,
    rfl, rfl, rfl, ?_⟩
  rw [create_sale_ok_eq dbNoTax (mkSale [itemMilk]) (by decide)]
  rfl

/-- C8 amended: the three Tunisian defaults (TVA7 = 0.07, TVA13 = 0.13,
TVA19 = 0.19 flagged default) are seeded lazily by `ensure_default_taxes`
— run when taxes are listed or demo data is seeded, not by sale creation:
it appends exactly the missing defaults, after which all three codes
exist. -/
theorem claim_C8_lazy_seed_spec (ts : List TaxRate) :
    (∀ d ∈ defaultTaxes, hasCode (ensure_default_taxes ts).1 d.code = true) ∧
    (ensure_default_taxes ts).1 = ts ++ (ensure_default_taxes ts).2 ∧
    (∀ d ∈ (ensure_default_taxes ts).2,
        d ∈ defaultTaxes ∧ hasCode ts d.code = false) ∧
    (∀ d ∈ defaultTaxes,
        hasCode ts d.code = false → d ∈ (ensure_default_taxes ts).2) ∧
    defaultTaxes.map TaxRate.code = ["TVA7", "TVA13", "TVA19"] ∧
    defaultTaxes.map TaxRate.rate = [7/100, 13/100, 19/100] ∧
    defaultTaxes.map TaxRate.is_default = [false, false, true] := by
  refine ⟨?_, rfl, ?_, ?_, rfl, rfl, rfl⟩
  · intro d hd
    rw [show (ensure_default_taxes ts).1
        = ts ++ (ensure_default_taxes ts).2 from rfl, hasCode_append]
    by_cases h : hasCode ts d.code = true
    · simp [h]
    · have hf : hasCode ts d.code = false := by
        cases hx : hasCode ts d.code
        · rfl
        · exact absurd hx h
      have hd2 : d ∈ (ensure_default_taxes ts).2 := by
        show d ∈ defaultTaxes.filter (fun d => !(hasCode ts d.code))
        rw [List.mem_filter]
        exact ⟨hd, by rw [hf]; rfl⟩
      have hc := hasCode_of_mem _ d hd2
      simp [hc]
  · intro d hd
    have hd' : d ∈ defaultTaxes.filter (fun d => !(hasCode ts d.code)) := hd
    rw [List.mem_filter] at hd'
    obtain ⟨h1, h2⟩ := hd'
    refine ⟨h1, ?_⟩
    cases hx : hasCode ts d.code
    · rfl
    · rw [hx] at h2; cases h2
  · intro d hd h
    show d ∈ defaultTaxes.filter (fun d => !(hasCode ts d.code))
    rw [List.mem_filter]
    exact ⟨hd, by rw [h]; rfl⟩

/-- C8 witness: the amended theorem applied to the empty tax collection. -/
theorem claim_C8_witness :
    (∀ d ∈ defaultTaxes,
        hasCode (ensure_default_taxes ([] : List TaxRate)).1 d.code = true) ∧
    (∀ d ∈ defaultTaxes,
        hasCode ([] : List TaxRate) d.code = false →
          d ∈ (ensure_default_taxes ([] : List TaxRate)).2) :=
  ⟨(claim_C8_lazy_seed_spec []).1, (claim_C8_lazy_seed_spec []).2.2.2.1⟩

/-- C9: the four caller-supplied computed fields (subtotal, tax_total,
total, tax_breakdown) are ignored — two requests equal on every other
field produce identical stores, records and responses. -/
theorem claim_C9_caller_totals_ignored (db : DB) (s1 s2 : Sale)
    (hitems : s1.items = s2.items)
    (hcust : s1.customer_name = s2.customer_name)
    (hpay : s1.payment = s2.payment)
    (huser : s1.user = s2.user)
    (hts : s1.timestamp = s2.timestamp) :
    create_sale db s1 = create_sale db s2 := by
  simp only [create_sale]
  rw [hitems, hcust, hpay, huser, hts]

/-- Sale request with junk caller-supplied totals and breakdown. -/
def saleJunk : Sale :=
  ⟨[itemMilk], none, 999, 999, 999, some [("TVA19", 5)], payCash, none, none⟩

/-- C9 witness: the junk-totals request and the zero-totals request give
identical results. -/
theorem claim_C9_witness :
    create_sale demoDB saleJunk = create_sale demoDB (mkSale [itemMilk]) :=
  claim_C9_caller_totals_ignored demoDB saleJunk (mkSale [itemMilk])
    rfl rfl rfl rfl rfl

/-- C10: a request with an empty items list commits: stock is untouched, a
record with zero subtotal, tax_total and total and an empty breakdown is
persisted, and those zero totals are returned. -/
theorem claim_C10_empty_items (db : DB) (cn : Option String) (sub tax tot : ℚ)
    (bd : Option (List (String × ℚ))) (pay : Payment) (usr : Option String)
    (ts : Option Nat) :
    create_sale db ⟨[], cn, sub, tax, tot, bd, pay, usr, ts⟩ =
      ({ db with sales := db.sales ++ [⟨[], cn, 0, 0, 0, [], pay, usr, ts⟩] },
       Except.ok ⟨[], cn, 0, 0, 0, [], pay, usr, ts⟩) := by
  have h := create_sale_ok_eq db ⟨[], cn, sub, tax, tot, bd, pay, usr, ts⟩
      (by intro it hit; cases hit)
  rw [h]
  simp [mkRecord, rawSubtotal, rawTax, rawBreakdown, decAll, round3]

end Keystone
